import Mathlib

/-!
Verification of the renderer-side IPC proxy module
(`src/app/src/ui/main-process-proxy.ts`): menu-tree serialization,
selection-path resolution, the contextual-menu flow, the proxy
factories and the error normalizer.
-/

set_option maxHeartbeats 1000000

namespace MainProcessProxy

/-- Modelled from the spec: `IMenuItem` (its defining file `app/src/lib/menu-item.ts`
is not part of the sources).  Per the spec's data model a node carries an
identifier, an optional local action (a no-argument callable, represented here
by an abstract token) and an optional ordered list of children.  The identifier
is optional because `findSubmenuItem` builds a synthetic root object
`{ submenu: items }` that carries neither identifier nor action. -/
inductive MenuItem : Type where
  | mk (id : Option String) (action : Option Nat) (submenu : Option (List MenuItem)) : MenuItem
deriving Repr

/-- The identifier of a node. -/
def MenuItem.id : MenuItem → Option String
  | .mk i _ _ => i

/-- The action token of a node (`none` when the node has no action). -/
def MenuItem.action : MenuItem → Option Nat
  | .mk _ a _ => a

/-- The submenu of a node (`none` when the `submenu` field is absent). -/
def MenuItem.submenu : MenuItem → Option (List MenuItem)
  | .mk _ _ s => s

/-- `serializeMenuItems` of the source, acting on a single node: the spread
`{...item, action: undefined, submenu: item.submenu ? serializeMenuItems(item.submenu) : undefined}`
copies the node, drops the action, and recursively serializes the submenu when
present (in JavaScript any array, the empty one included, is truthy, and
`undefined` is falsy, hence the `Option.map`-shaped branch). -/
def serializeMenuItem : MenuItem → MenuItem
  | .mk i _ none => .mk i none none
  | .mk i _ (some sub) =>
    .mk i none (some (sub.attach.map (fun x => serializeMenuItem x.1)))
decreasing_by
  have hx := List.sizeOf_lt_of_mem x.2
  simp only [MenuItem.mk.sizeOf_spec, Option.some.sizeOf_spec]
  omega

/-- Unfolding lemma for `serializeMenuItem` on a node with a submenu, phrased
with a plain `List.map`. -/
theorem serializeMenuItem_mk_some (i : Option String) (a : Option Nat)
    (sub : List MenuItem) :
    serializeMenuItem (.mk i a (some sub)) = .mk i none (some (sub.map serializeMenuItem)) := by
  rw [serializeMenuItem]
  congr 1
  exact congrArg some (List.attach_map_val sub serializeMenuItem)

/-- `serializeMenuItems` of the source: `items.map(item => ...)`. -/
def serializeMenuItems (items : List MenuItem) : List MenuItem :=
  items.map serializeMenuItem

/-- The synthetic root built at the top of `findSubmenuItem`:
`{ submenu: currentContextualMenuItems }`. -/
def syntheticRoot (items : List MenuItem) : MenuItem :=
  .mk none none (some items)

/-- The loop body of `findSubmenuItem`: for each index, if the current
candidate is `undefined` or has no submenu, return `undefined`; otherwise move
to `submenu[index]` (JavaScript indexing yields `undefined` out of range, which
`List.get?` models). -/
def findLoop : Option MenuItem → List Nat → Option MenuItem
  | found, [] => found
  | none, _ :: _ => none
  | some (.mk _ _ none), _ :: _ => none
  | some (.mk _ _ (some sub)), i :: rest => findLoop (sub.get? i) rest

/-- `findSubmenuItem` of the source: run the loop starting from the synthetic
root. -/
def findSubmenuItem (items : List MenuItem) (indices : List Nat) : Option MenuItem :=
  findLoop (some (syntheticRoot items)) indices

/-- Modelled from the spec: "the node reached by following those indices
positionally" — positional descent through the tree, one child index at a
time.  This is the specification-side description of resolution, to be
compared with `findSubmenuItem`. -/
def followPath : MenuItem → List Nat → Option MenuItem
  | item, [] => some item
  | .mk _ _ none, _ :: _ => none
  | .mk _ _ (some sub), i :: rest =>
    match sub.get? i with
    | none => none
    | some child => followPath child rest

/-- Modelled from the spec: a path "of indices that are all valid child
positions at each successive level" starting at the given node. -/
def validPathFrom : MenuItem → List Nat → Bool
  | _, [] => true
  | .mk _ _ none, _ :: _ => false
  | .mk _ _ (some sub), i :: rest =>
    match sub.get? i with
    | none => false
    | some child => validPathFrom child rest

mutual

/-- Modelled from the spec: "the output contains no callable values" — a tree
carries no action token at any node, at any depth. -/
def hasNoAction : MenuItem → Bool
  | .mk _ a none => a.isNone
  | .mk _ a (some sub) => a.isNone && hasNoActionList sub

/-- `hasNoAction` over every node of a forest. -/
def hasNoActionList : List MenuItem → Bool
  | [] => true
  | x :: xs => hasNoAction x && hasNoActionList xs

end

/-- `hasNoActionList` is `List.all hasNoAction`. -/
theorem hasNoActionList_eq_all (l : List MenuItem) :
    hasNoActionList l = l.all hasNoAction := by
  induction l with
  | nil => rfl
  | cons x xs ih => rw [hasNoActionList, ih, List.all_cons]

/-- The action-free skeleton of a menu tree: identifier, child ordering and
nesting, with action data forgotten.  Two trees with equal skeletons are
"structurally identical" in the spec's sense. -/
inductive IdTree : Type where
  | node (id : Option String) (children : Option (List IdTree)) : IdTree
deriving Repr

/-- Project a menu node to its skeleton. -/
def idTreeOf : MenuItem → IdTree
  | .mk i _ none => .node i none
  | .mk i _ (some sub) => .node i (some (sub.attach.map (fun x => idTreeOf x.1)))
decreasing_by
  have hx := List.sizeOf_lt_of_mem x.2
  simp only [MenuItem.mk.sizeOf_spec, Option.some.sizeOf_spec]
  omega

/-- Unfolding lemma for `idTreeOf` on a node with a submenu, phrased with a
plain `List.map`. -/
theorem idTreeOf_mk_some (i : Option String) (a : Option Nat) (sub : List MenuItem) :
    idTreeOf (.mk i a (some sub)) = .node i (some (sub.map idTreeOf)) := by
  rw [idTreeOf]
  congr 1
  exact congrArg some (List.attach_map_val sub idTreeOf)

/-- A record of one call handed to the transport: the channel name and the
argument tuple (arguments abstracted as strings). -/
structure IpcCall where
  channel : String
  args : List String
deriving Repr, DecidableEq

/-- `sendProxy` of the source: given a channel name it returns a closure
forwarding its arguments to `ipcRenderer.send`.  One invocation of the closure
is modelled by the list of transport calls it performs (its trace) paired with
its (absent) return value. -/
def sendProxy (channel : String) : List String → List IpcCall × Unit :=
  fun args => ([⟨channel, args⟩], ())

/-- `invokeProxy` of the source: given a channel name it returns a closure
forwarding its arguments to `ipcRenderer.invoke` and returning whatever the
transport eventually reports (a value or a failure, modelled by `Except`).
`transport` is the external collaborator answering `invoke` requests. -/
def invokeProxy (channel : String)
    (transport : String → List String → Except String String) :
    List String → List IpcCall × Except String String :=
  fun args => ([⟨channel, args⟩], transport channel args)

/-- `showContextualMenu` of the source: serialize the items, hand them with
the merge flag to the host (the awaited `_showContextualMenu` invoke, modelled
by the function `host`; `none` is the `null` "no selection" sentinel), and, if
a path came back, resolve it against the original items and invoke the found
node's action when it has one.  The result is the token of the action invoked,
`none` when no action is invoked. -/
def showContextualMenu (items : List MenuItem)
    (host : List MenuItem → Bool → Option (List Nat))
    (mergeWithSpellcheckSuggestions : Bool) : Option Nat :=
  match host (serializeMenuItems items) mergeWithSpellcheckSuggestions with
  | none => none
  | some indices =>
    match findSubmenuItem items indices with
    | none => none
    | some menuItem => menuItem.action

/-- `serializeMenuItems` with the input tree threaded as explicit state: the
source builds every output node fresh by object spread and never assigns into
`items`, so the state component is returned untouched. -/
def serializeMenuItemsSt (items : List MenuItem) :
    List MenuItem × List MenuItem :=
  (serializeMenuItems items, items)

/-- `findSubmenuItem` with the input tree threaded as explicit state: the
source only reads `submenu` fields and never assigns into the tree, so the
state component is returned untouched. -/
def findSubmenuItemSt (items : List MenuItem) (indices : List Nat) :
    Option MenuItem × List MenuItem :=
  (findSubmenuItem items indices, items)

/-- A JavaScript `Error` as `getIpcFriendlyError` observes it: a `message`, a
`name` and a `stack` field, each possibly absent (`none`) or empty
(`some ""` — both are falsy for `||`), and `str`, the string conversion
the template literal interpolation of the whole object performs. -/
structure JsError where
  message : Option String
  name : Option String
  stack : Option String
  str : String
deriving Repr, DecidableEq

/-- JavaScript `a || b` on a string-or-undefined left operand: the left value
unless it is falsy (absent or the empty string). -/
def jsOrElse : Option String → String → String
  | none, fallback => fallback
  | some s, fallback => if s = "" then fallback else s

/-- The template literal interpolation of a possibly-absent string field:
interpolating `undefined` yields the string `"undefined"`. -/
def interpField : Option String → String
  | none => "undefined"
  | some s => s

/-- The transport-safe record produced by `getIpcFriendlyError`. -/
structure IpcFriendlyError where
  message : String
  name : String
  stack : Option String
deriving Repr, DecidableEq

/-- `getIpcFriendlyError` of the source:
`{ message: error.message || interpolation of error, name: error.name || interpolation of error.name, stack: error.stack || undefined }`. -/
def getIpcFriendlyError (error : JsError) : IpcFriendlyError :=
  { message := jsOrElse error.message error.str
    name := jsOrElse error.name (interpField error.name)
    stack :=
      match error.stack with
      | none => none
      | some s => if s = "" then none else some s }

/-! ## Example tree from the spec's scenario -/

/-- The `A1` leaf of the spec's example scenario, with action token `1`
standing for `f`. -/
def nodeA1 : MenuItem := .mk (some "A1") (some 1) none

/-- The `A` submenu header of the spec's example scenario. -/
def nodeA : MenuItem := .mk (some "A") none (some [nodeA1])

/-- The `B` leaf of the spec's example scenario, with action token `2`
standing for `g`. -/
def nodeB : MenuItem := .mk (some "B") (some 2) none

/-- The spec's example tree
`[{id:"A", submenu:[{id:"A1", action: f}]}, {id:"B", action: g}]`. -/
def exampleTree : List MenuItem := [nodeA, nodeB]

/-! ## Resolution lemmas -/

/-- Once the candidate is `undefined` the loop returns `undefined`. -/
theorem findLoop_none (p : List Nat) : findLoop none p = none := by
  cases p with
  | nil => rfl
  | cons i rest => rfl

/-- The loop of `findSubmenuItem`, started at any node, computes exactly the
positional descent `followPath`. -/
theorem findLoop_some_eq_followPath (p : List Nat) :
    ∀ item : MenuItem, findLoop (some item) p = followPath item p := by
  induction p with
  | nil => intro item; simp only [findLoop, followPath]
  | cons i rest ih =>
    intro item
    cases item with
    | mk idn a submenu =>
      cases submenu with
      | none => simp only [findLoop, followPath]
      | some sub =>
        simp only [findLoop, followPath]
        cases h : sub.get? i with
        | none => simp only [findLoop_none]
        | some child => exact ih child

/-- `findSubmenuItem` computes the positional descent from the synthetic
root. -/
theorem findSubmenuItem_eq_followPath (items : List MenuItem) (p : List Nat) :
    findSubmenuItem items p = followPath (syntheticRoot items) p :=
  findLoop_some_eq_followPath p (syntheticRoot items)

/-- On a valid path the positional descent reaches a node. -/
theorem followPath_isSome_of_valid (p : List Nat) :
    ∀ item : MenuItem, validPathFrom item p = true →
      ∃ node, followPath item p = some node := by
  induction p with
  | nil => intro item _; exact ⟨item, by simp only [followPath]⟩
  | cons i rest ih =>
    intro item hv
    cases item with
    | mk idn a submenu =>
      cases submenu with
      | none => simp [validPathFrom] at hv
      | some sub =>
        simp only [validPathFrom] at hv
        simp only [followPath]
        cases h : sub.get? i with
        | none => rw [h] at hv; simp at hv
        | some child =>
          rw [h] at hv
          exact ih child hv

/-- On an invalid path the positional descent yields `undefined`. -/
theorem followPath_none_of_invalid (p : List Nat) :
    ∀ item : MenuItem, validPathFrom item p = false →
      followPath item p = none := by
  induction p with
  | nil => intro item hv; simp [validPathFrom] at hv
  | cons i rest ih =>
    intro item hv
    cases item with
    | mk idn a submenu =>
      cases submenu with
      | none => simp only [followPath]
      | some sub =>
        simp only [validPathFrom] at hv
        simp only [followPath]
        cases h : sub.get? i with
        | none => rfl
        | some child =>
          rw [h] at hv
          exact ih child hv

/-! ## Claim theorems: resolution -/

/-- C1: for every menu tree and every path of indices that are all valid child
positions at each successive level (starting from the synthetic root whose
submenu is the top-level node sequence), `findSubmenuItem` returns exactly the
node of the original tree reached by following those indices positionally. -/
theorem findSubmenuItem_valid_path_reaches_node
    (items : List MenuItem) (p : List Nat)
    (hv : validPathFrom (syntheticRoot items) p = true) :
    ∃ node, followPath (syntheticRoot items) p = some node ∧
      findSubmenuItem items p = some node := by
  obtain ⟨node, hnode⟩ := followPath_isSome_of_valid p (syntheticRoot items) hv
  exact ⟨node, hnode, (findSubmenuItem_eq_followPath items p).trans hnode⟩

/-- Witness for C1: on the spec's example tree, the path `[0, 0]` is valid and
resolves to the `A1` node. -/
theorem findSubmenuItem_valid_path_reaches_node_witness :
    ∃ node, followPath (syntheticRoot exampleTree) [0, 0] = some node ∧
      findSubmenuItem exampleTree [0, 0] = some node :=
  findSubmenuItem_valid_path_reaches_node exampleTree [0, 0] rfl

/-- C3: for every menu tree and every path, if some index is out of range at
its level, or the path descends through a node that is undefined or has no
submenu (that is, the path is not valid), then `findSubmenuItem` returns
`undefined`; the traversal is a total function, so malformed paths are
signalled as "no match", never as a thrown error. -/
theorem findSubmenuItem_invalid_path_returns_none
    (items : List MenuItem) (p : List Nat)
    (hv : validPathFrom (syntheticRoot items) p = false) :
    findSubmenuItem items p = none :=
  (findSubmenuItem_eq_followPath items p).trans
    (followPath_none_of_invalid p (syntheticRoot items) hv)

/-- Witness for C3: on the spec's example tree the path `[5]` is out of range
at the top level and resolves to `undefined`. -/
theorem findSubmenuItem_invalid_path_returns_none_witness :
    findSubmenuItem exampleTree [5] = none :=
  findSubmenuItem_invalid_path_returns_none exampleTree [5] rfl

/-! ## Serialization lemmas -/

mutual

/-- A single serialized node carries no action at any depth. -/
theorem hasNoAction_serializeMenuItem :
    ∀ item : MenuItem, hasNoAction (serializeMenuItem item) = true
  | .mk i a none => by
    rw [serializeMenuItem, hasNoAction]
    rfl
  | .mk i a (some sub) => by
    rw [serializeMenuItem_mk_some, hasNoAction,
      hasNoActionList_serializeMenuItems sub]
    rfl

/-- A serialized forest carries no action at any depth. -/
theorem hasNoActionList_serializeMenuItems :
    ∀ l : List MenuItem, hasNoActionList (l.map serializeMenuItem) = true
  | [] => by rw [List.map_nil, hasNoActionList]
  | x :: xs => by
    rw [List.map_cons, hasNoActionList, hasNoAction_serializeMenuItem x,
      hasNoActionList_serializeMenuItems xs]
    rfl

end

mutual

/-- Serialization preserves the skeleton (identifier, child ordering, nesting)
of a node. -/
theorem idTreeOf_serializeMenuItem :
    ∀ item : MenuItem, idTreeOf (serializeMenuItem item) = idTreeOf item
  | .mk i a none => by rw [serializeMenuItem, idTreeOf, idTreeOf]
  | .mk i a (some sub) => by
    rw [serializeMenuItem_mk_some, idTreeOf_mk_some, idTreeOf_mk_some,
      idTreeOfList_serializeMenuItems sub]

/-- Serialization preserves the skeletons of a forest. -/
theorem idTreeOfList_serializeMenuItems :
    ∀ l : List MenuItem, (l.map serializeMenuItem).map idTreeOf = l.map idTreeOf
  | [] => by rw [List.map_nil, List.map_nil]
  | x :: xs => by
    rw [List.map_cons, List.map_cons, List.map_cons,
      idTreeOf_serializeMenuItem x, idTreeOfList_serializeMenuItems xs]

end

mutual

/-- Serializing an already-serialized node changes nothing. -/
theorem serializeMenuItem_idem :
    ∀ item : MenuItem, serializeMenuItem (serializeMenuItem item) = serializeMenuItem item
  | .mk i a none => by rw [serializeMenuItem, serializeMenuItem]
  | .mk i a (some sub) => by
    rw [serializeMenuItem_mk_some, serializeMenuItem_mk_some,
      serializeMenuItems_idem_list sub]

/-- Serializing an already-serialized forest changes nothing. -/
theorem serializeMenuItems_idem_list :
    ∀ l : List MenuItem,
      (l.map serializeMenuItem).map serializeMenuItem = l.map serializeMenuItem
  | [] => by rw [List.map_nil, List.map_nil]
  | x :: xs => by
    rw [List.map_cons, List.map_cons, serializeMenuItem_idem x,
      serializeMenuItems_idem_list xs]

end

/-! ## Claim theorems: serialization -/

/-- C2: for every menu tree, the output of `serializeMenuItems` carries no
action value at any node at any depth, and is otherwise structurally identical
to the input: same identifiers, same child ordering, same nesting depth, with
submenus recursively converted (equal `idTreeOf` skeletons). -/
theorem serializeMenuItems_strips_actions_preserves_skeleton
    (items : List MenuItem) :
    hasNoActionList (serializeMenuItems items) = true ∧
      (serializeMenuItems items).map idTreeOf = items.map idTreeOf :=
  ⟨hasNoActionList_serializeMenuItems items, idTreeOfList_serializeMenuItems items⟩

/-- C7: `serializeMenuItems` is idempotent — applying it to its own output
yields an equal tree, the action field being already absent there. -/
theorem serializeMenuItems_idempotent (items : List MenuItem) :
    serializeMenuItems (serializeMenuItems items) = serializeMenuItems items :=
  serializeMenuItems_idem_list items

/-! ## Claim theorems: contextual-menu flow, proxies, purity, errors -/

/-- The empty path resolves to the synthetic root. -/
theorem findSubmenuItem_nil (items : List MenuItem) :
    findSubmenuItem items [] = some (syntheticRoot items) := by
  rw [findSubmenuItem]
  simp only [findLoop, syntheticRoot]

/-- C4: `showContextualMenu` invokes no action when the host returns the
no-selection sentinel, when the path fails to resolve to a node, and when the
resolved node carries no action; in particular the empty path resolves to the
synthetic root, which has no action, so nothing is invoked. -/
theorem showContextualMenu_no_invocation_cases
    (items : List MenuItem)
    (host : List MenuItem → Bool → Option (List Nat)) (flag : Bool) :
    (host (serializeMenuItems items) flag = none →
      showContextualMenu items host flag = none) ∧
    (∀ p, host (serializeMenuItems items) flag = some p →
      findSubmenuItem items p = none →
      showContextualMenu items host flag = none) ∧
    (∀ p node, host (serializeMenuItems items) flag = some p →
      findSubmenuItem items p = some node → node.action = none →
      showContextualMenu items host flag = none) ∧
    (host (serializeMenuItems items) flag = some [] →
      showContextualMenu items host flag = none) := by
  refine ⟨fun h => ?_, fun p h hf => ?_, fun p node h hf ha => ?_, fun h => ?_⟩
  · simp only [showContextualMenu, h]
  · simp only [showContextualMenu, h, hf]
  · simp only [showContextualMenu, h, hf, ha]
  · simp only [showContextualMenu, h, findSubmenuItem_nil]
    rfl

/-- Witness for C4: a host replying with the empty path on the spec's example
tree triggers no action invocation. -/
theorem showContextualMenu_no_invocation_cases_witness :
    showContextualMenu exampleTree (fun _ _ => some []) false = none :=
  (showContextualMenu_no_invocation_cases exampleTree (fun _ _ => some []) false).2.2.2 rfl

/-- C8: one invocation of a proxy produced by `sendProxy` or `invokeProxy`
causes exactly one transport call carrying the same channel name and the same
arguments; the notifier returns no value (`Unit`), and the requester returns
exactly what the transport reports for that channel and argument tuple. -/
theorem proxy_single_transport_call (channel : String) (args : List String)
    (transport : String → List String → Except String String) :
    sendProxy channel args = ([⟨channel, args⟩], ()) ∧
      invokeProxy channel transport args = ([⟨channel, args⟩], transport channel args) :=
  ⟨rfl, rfl⟩

/-- C9: neither `serializeMenuItems` nor `findSubmenuItem` mutates the input
tree — with the tree threaded as explicit state, both return it unchanged, so
the tree `findSubmenuItem` reads after the round trip is exactly the one that
was passed to `serializeMenuItems`. -/
theorem serialize_and_resolve_leave_tree_unchanged
    (items : List MenuItem) (p : List Nat) :
    (serializeMenuItemsSt items).2 = items ∧
      (findSubmenuItemSt items p).2 = items ∧
      (findSubmenuItemSt (serializeMenuItemsSt items).2 p).1 =
        findSubmenuItem items p :=
  ⟨rfl, rfl, rfl⟩

/-- C5: in `getIpcFriendlyError` the name fallback is drawn from the same
source as the primary value — whenever the error's name field is absent or
empty, the resulting name is the string interpolation of that same
absent/empty name field, so an absent name is never recovered to a meaningful
default. -/
theorem getIpcFriendlyError_name_fallback_same_source (e : JsError)
    (h : e.name = none ∨ e.name = some "") :
    (getIpcFriendlyError e).name = interpField e.name := by
  rcases h with h | h <;> simp [getIpcFriendlyError, h, jsOrElse, interpField]

/-- Witness for C5: an error with an absent name gets the interpolation of
that absent field (the string `"undefined"`), not a meaningful default. -/
theorem getIpcFriendlyError_name_fallback_same_source_witness :
    (getIpcFriendlyError ⟨some "m", none, none, "Error: m"⟩).name =
        interpField none ∧
      interpField (none : Option String) = "undefined" :=
  ⟨getIpcFriendlyError_name_fallback_same_source
    ⟨some "m", none, none, "Error: m"⟩ (Or.inl rfl), rfl⟩

/-- C6: `getIpcFriendlyError` on an error with non-empty message `"boom"`,
name `"TypeError"` and a (non-empty) stack trace returns exactly those three
values unchanged; and for every error whose message is empty or absent, the
record's message is the error's string conversion instead. -/
theorem getIpcFriendlyError_preserves_fields_and_message_fallback :
    (∀ stack str : String, stack ≠ "" →
      getIpcFriendlyError ⟨some "boom", some "TypeError", some stack, str⟩ =
        ⟨"boom", "TypeError", some stack⟩) ∧
    (∀ e : JsError, e.message = none ∨ e.message = some "" →
      (getIpcFriendlyError e).message = e.str) := by
  constructor
  · intro stack str hs
    simp [getIpcFriendlyError, jsOrElse, hs]
  · intro e h
    rcases h with h | h <;> simp [getIpcFriendlyError, h, jsOrElse]

/-- Witness for C6: a concrete error with message `"boom"`, name
`"TypeError"` and stack `"trace"` passes through unchanged, and a concrete
error with empty message falls back to its string conversion. -/
theorem getIpcFriendlyError_preserves_fields_and_message_fallback_witness :
    getIpcFriendlyError ⟨some "boom", some "TypeError", some "trace", "TypeError: boom"⟩ =
        ⟨"boom", "TypeError", some "trace"⟩ ∧
      (getIpcFriendlyError ⟨some "", some "n", none, "Error"⟩).message = "Error" :=
  ⟨getIpcFriendlyError_preserves_fields_and_message_fallback.1 "trace"
      "TypeError: boom" (by decide),
    getIpcFriendlyError_preserves_fields_and_message_fallback.2
      ⟨some "", some "n", none, "Error"⟩ (Or.inr rfl)⟩

/-- C10: for every error whose stack field is the empty string,
`getIpcFriendlyError` produces a record whose stack is absent — an
empty-string stack is treated the same as a missing one rather than being
passed through. -/
theorem getIpcFriendlyError_empty_stack_dropped (e : JsError)
    (h : e.stack = some "") :
    (getIpcFriendlyError e).stack = none := by
  simp [getIpcFriendlyError, h]

/-- Witness for C10: a concrete error with an empty-string stack yields a
record with an absent stack. -/
theorem getIpcFriendlyError_empty_stack_dropped_witness :
    (getIpcFriendlyError ⟨some "m", some "n", some "", "Error: m"⟩).stack = none :=
  getIpcFriendlyError_empty_stack_dropped ⟨some "m", some "n", some "", "Error: m"⟩ rfl

end MainProcessProxy
